import Mathlib

/-!
# Verification of the marketing-campaign-automation content pipeline

A shallow embedding, in Lean 4, of the content lifecycle state machine, the
publishing-provider validation, the trend store, and the campaign orchestrator
of the marketing-campaign-automation repository (Next.js variant), together
with theorems settling the frozen specification claims.

Every definition is translated from the TypeScript source:
* the publish route (`app/api/content/[id]/publish/route.ts`),
* the approve route (`app/api/content/[id]/approve/route.ts`),
* `PublishingValidatorService` (`publishingValidator.service.ts`),
* `TrendService` (`trendDiscovery.service.ts`),
* `ContentGenerationService` (`aiContent.service.ts`),
* `CampaignRunner` (`campaign.service.ts`),
* the content-status PATCH route (`trends.routes.ts`).

The SQLite tables are modelled as Lean lists of rows; `CURRENT_TIMESTAMP` and
`Date.now()` are threaded as explicit `Nat` clock values; external
collaborators (the LLM generator, the Google Docs client) are parameters
describing their observable outcome.
-/

namespace MarketingAutomation

/-- Publishing platforms, from the `platform` union type used across the
source (`'wechat' | 'xhs' | 'googledocs'`). -/
inductive Platform where
  | wechat
  | xhs
  | googledocs
deriving DecidableEq, Repr

/-- Content lifecycle statuses stored in the `content.status` column. -/
inductive ContentStatus where
  | draft
  | pending_approval
  | approved
  | published
  | rejected
deriving DecidableEq, Repr

/-- Topic statuses stored in the `topics.status` column. -/
inductive TopicStatus where
  | pending
  | processed
deriving DecidableEq, Repr

/-- One generated platform post, from the `GeneratedContent` interface of
`aiContent.service.ts` (image fields omitted: the campaign runner never
requests image generation). -/
structure GenPost where
  title : String
  body : String
  hashtags : Option String
deriving DecidableEq, Repr

/-- A row of the `content` table.  The table serves two insert shapes in the
source: per-platform drafts written by `saveContentToDatabase` (which fill
`topicId`/`platform`/`title`/`body`), and the aggregate row written by
`CampaignRunner.runCampaign` (which fills `trendTitle`/`contentText`); absent
columns are `none`.  `contentText` holds the serialised generated payload. -/
structure ContentRow where
  id : Nat
  topicId : Option Nat
  platform : Option Platform
  title : Option String
  body : Option String
  hashtags : Option String
  imageUrl : Option String
  trendTitle : Option String
  contentText : Option (List (Platform × GenPost))
  status : ContentStatus
  createdAt : Option Nat
  approvedAt : Option Nat
  publishedAt : Option Nat
  publishedUrl : Option String
deriving DecidableEq, Repr

/-- A row of the `topics` table. -/
structure TopicRow where
  id : Nat
  title : String
  source : String
  sourceUrl : Option String
  status : TopicStatus
  discoveredAt : Nat
  processedAt : Option Nat
deriving DecidableEq, Repr

/-- The persisted database state: the two tables plus the auto-increment
counters for their primary keys. -/
structure DbState where
  topics : List TopicRow
  content : List ContentRow
  nextTopicId : Nat
  nextContentId : Nat
deriving DecidableEq, Repr

/-- The user configuration fields read by the core (`loadUserConfig`).  A
field is `none` when absent from the config file; a present field may still
be the empty string. -/
structure UserConfig where
  wechatAppId : Option String
  wechatAppSecret : Option String
  xhsCookie : Option String
  googleDocsCredentials : Option String
  googleDocsFolderId : Option String
deriving DecidableEq, Repr

/-- JavaScript truthiness of an optional string field (`!!x`): `undefined`
and the empty string are falsy. -/
def truthy : Option String → Bool
  | none => false
  | some s => !(s == "")

/-! ## Provider Registry (`publishingValidator.service.ts`) -/

/-- The `PublishingProvider` interface of `publishingValidator.service.ts`. -/
structure PublishingProvider where
  name : String
  platform : Platform
  configured : Bool
  missing_keys : List String
deriving DecidableEq, Repr

/-- `PublishingValidatorService.validatePublishingProviders`, cache aside
(the 60-second static cache only affects freshness, not the value computed
from a given configuration): the three provider entries and their
configured/missing-keys computation. -/
def validatePublishingProviders (cfg : UserConfig) : List PublishingProvider :=
  let wechatConfigured := truthy cfg.wechatAppId && truthy cfg.wechatAppSecret
  let xhsConfigured := truthy cfg.xhsCookie
  let googleDocsConfigured := truthy cfg.googleDocsCredentials && truthy cfg.googleDocsFolderId
  [ { name := "WeChat Official Account", platform := .wechat,
      configured := wechatConfigured,
      missing_keys := if wechatConfigured then [] else ["wechatAppId", "wechatAppSecret"] },
    { name := "Xiao Hongshu (Semi-automated)", platform := .xhs,
      configured := xhsConfigured,
      missing_keys := if xhsConfigured then [] else ["xhsCookie"] },
    { name := "Google Docs", platform := .googledocs,
      configured := googleDocsConfigured,
      missing_keys := if googleDocsConfigured then [] else ["googleDocsCredentials"] } ]

/-- `PublishingValidatorService.getAvailableProviders`. -/
def getAvailableProviders (cfg : UserConfig) : List PublishingProvider :=
  (validatePublishingProviders cfg).filter (·.configured)

/-- `PublishingValidatorService.hasAnyProviderConfigured`. -/
def hasAnyProviderConfigured (cfg : UserConfig) : Bool :=
  (getAvailableProviders cfg).length > 0

/-- The per-provider missing-keys listing that `validateBeforeCampaign`
assembles and writes to the error log (`missingInfo` in the source). -/
def campaignMissingInfo (cfg : UserConfig) : String :=
  String.intercalate "\n"
    ((validatePublishingProviders cfg).map fun p =>
      p.name ++ ": Missing " ++ String.intercalate ", " p.missing_keys)

/-- The fixed message of the `AppError` thrown by `validateBeforeCampaign`. -/
def noProviderMsg : String :=
  "No publishing providers configured. Please configure at least one of: WeChat, XHS, or Google Docs before starting a campaign."

/-- `PublishingValidatorService.validateBeforeCampaign`: throws an
`AppError` with the fixed message when no provider is configured (the
per-provider `missingInfo` goes to `logger.error`, not to the error). -/
def validateBeforeCampaign (cfg : UserConfig) : Except String Unit :=
  if hasAnyProviderConfigured cfg then .ok () else .error noProviderMsg

/-! ## Publish route (`app/api/content/[id]/publish/route.ts`) -/

/-- The observable behaviour of the `GoogleDocsService` collaborator during a
publish request: its `isConfigured()` answer and the outcome of
`createDocument` (the created document URL, or a thrown error message). -/
structure GDocsBehavior where
  configured : Bool
  createResult : Except String String

/-- Outcomes of the publish route handler.  `notFound` is the 404 response,
`notApproved` the 400 "Content must be approved before publishing" response,
`allFailed` the 500 "Publishing failed for all platforms" response. -/
inductive PublishOutcome where
  | notFound
  | notApproved
  | allFailed
  | ok (url : Option String)
deriving DecidableEq, Repr

/-- The platform-dispatch section of the publish route (the inner
`try`/`catch`): returns the `publishResults.platform` flag together with the
`googleDocsUrl` captured on a Google Docs success.  Any thrown error is
caught and leaves the flag `false`. -/
def dispatchPlatform (cfg : UserConfig) (gd : GDocsBehavior) :
    Option Platform → Bool × Option String
  | some .wechat =>
      if truthy cfg.wechatAppId && truthy cfg.wechatAppSecret then (true, none)
      else (false, none)
  | some .xhs =>
      if truthy cfg.xhsCookie then (true, none) else (false, none)
  | some .googledocs =>
      if truthy cfg.googleDocsCredentials then
        if gd.configured then
          match gd.createResult with
          | .ok url => (true, some url)
          | .error _ => (false, none)
        else (false, none)
      else (false, none)
  | none => (false, none)

/-- The `UPDATE content SET status='published', published_at=now,
published_url=? WHERE id=?` statement of the publish route, applied to one
row. -/
def publishUpdate (id : Nat) (now : Nat) (url : Option String)
    (r : ContentRow) : ContentRow :=
  if r.id = id then
    { r with status := .published, publishedAt := some now, publishedUrl := url }
  else r

/-- The publish route `POST` handler: looks the row up, rejects a missing id
(404) and a non-`approved` row (400), dispatches to the row's platform, and
only on `hasSuccessfulPublish` marks the row published. -/
def publishHandler (cfg : UserConfig) (gd : GDocsBehavior) (now : Nat)
    (table : List ContentRow) (id : Nat) : PublishOutcome × List ContentRow :=
  match table.find? (fun r => r.id == id) with
  | none => (.notFound, table)
  | some c =>
      if c.status = .approved then
        let res := dispatchPlatform cfg gd c.platform
        let hasSuccessfulPublish := res.1 || false
        if hasSuccessfulPublish then
          (.ok res.2, table.map (publishUpdate id now res.2))
        else (.allFailed, table)
      else (.notApproved, table)

/-! ## Approve route (`app/api/content/[id]/approve/route.ts`) -/

/-- The `UPDATE content SET status='approved', approved_at=now WHERE id=?`
statement of the approve route, applied to one row: unconditional on the
row's current status. -/
def approveUpdate (id : Nat) (now : Nat) (r : ContentRow) : ContentRow :=
  if r.id = id then { r with status := .approved, approvedAt := some now }
  else r

/-- The approve route `POST` handler: runs the unconditional `UPDATE`, then
re-reads the row and reports success — also when no row has the id (the
`UPDATE` simply matches nothing and the returned `content` is absent). -/
def approveHandler (now : Nat) (table : List ContentRow) (id : Nat) :
    Option ContentRow × List ContentRow :=
  let table' := table.map (approveUpdate id now)
  (table'.find? (fun r => r.id == id), table')

/-! ## Content status PATCH route (`trends.routes.ts` content section) and
`ContentGenerationService.updateContentStatus` -/

/-- The status strings admitted by the route's Joi validation
(`Joi.string().valid('draft', 'approved', 'published', 'rejected')`). -/
def allowedStatusStrings : List String :=
  ["draft", "approved", "published", "rejected"]

/-- Parse one of the admitted status strings. -/
def parseStatus : String → Option ContentStatus
  | "draft" => some .draft
  | "approved" => some .approved
  | "published" => some .published
  | "rejected" => some .rejected
  | _ => none

/-- The row rewrite of `updateContentStatus`: the requested status is set
unconditionally; `approved_at` is stamped only when the new status is
`approved` and `published_at` only when it is `published`. -/
def statusStamp (s : ContentStatus) (now : Nat) (r : ContentRow) : ContentRow :=
  { r with
      status := s,
      approvedAt := if s = .approved then some now else r.approvedAt,
      publishedAt := if s = .published then some now else r.publishedAt }

/-- `ContentGenerationService.updateContentStatus`: applies `statusStamp` to
the row with the given id, with no check of the current status. -/
def updateContentStatus (id : Nat) (s : ContentStatus) (now : Nat)
    (table : List ContentRow) : List ContentRow :=
  table.map fun r => if r.id = id then statusStamp s now r else r

/-- The `PATCH /:id/status` route: Joi validation of the status string, then
`updateContentStatus`.  `none` is the 400 validation failure. -/
def patchContentStatus (raw : String) (id : Nat) (now : Nat)
    (table : List ContentRow) : Option (List ContentRow) :=
  match parseStatus raw with
  | some s => some (updateContentStatus id s now table)
  | none => none

/-- Whether `pat` occurs at the head of `l` (character-list matching helper
for reasoning about message contents). -/
def headMatch : List Char → List Char → Bool
  | [], _ => true
  | _ :: _, [] => false
  | a :: as, b :: bs => a == b && headMatch as bs

/-- Whether `pat` occurs anywhere inside `l`. -/
def subOccurs (pat : List Char) : List Char → Bool
  | [] => pat.isEmpty
  | c :: cs => headMatch pat (c :: cs) || subOccurs pat cs

/-- Whether `pat` occurs as a substring of `s`. -/
def strOccurs (s pat : String) : Bool := subOccurs pat.data s.data

/-! ## Trend Store (`trendDiscovery.service.ts`) -/

/-- The `TrendItem` interface (description/publishedAt omitted: they are
never read by the store). -/
structure TrendItem where
  title : String
  source : String
  sourceUrl : Option String
deriving DecidableEq, Repr

/-- Lowercasing of a string, as both JavaScript `toLowerCase()` and SQLite
`LOWER()` behave on the ASCII range. -/
def lowerStr (s : String) : String :=
  String.mk (s.data.map Char.toLower)

/-- Whitespace trimming, as JavaScript `trim()` behaves on the ASCII range. -/
def trimStr (s : String) : String :=
  String.mk (((s.data.dropWhile Char.isWhitespace).reverse.dropWhile
    Char.isWhitespace).reverse)

/-- The in-batch normalisation key of `deduplicateTrends`:
`trend.title.toLowerCase().trim()`. -/
def normTitle (s : String) : String := trimStr (lowerStr s)

/-- The cross-batch collision key of `saveTrendsToDatabase`:
`LOWER(title)` — lowercasing only, with no trimming. -/
def sqlLowerKey (s : String) : String := lowerStr s

/-- The recursion of `TrendService.deduplicateTrends`, carrying the `seen`
set of normalised titles. -/
def dedupGo (seen : List String) : List TrendItem → List TrendItem
  | [] => []
  | t :: ts =>
      let n := normTitle t.title
      if seen.contains n then dedupGo seen ts
      else t :: dedupGo (n :: seen) ts

/-- `TrendService.deduplicateTrends`: keep the first item of each
lowercase+trim title class within one batch. -/
def deduplicateTrends (trends : List TrendItem) : List TrendItem :=
  dedupGo [] trends

/-- The existence check of `saveTrendsToDatabase`:
`SELECT id FROM topics WHERE LOWER(title) = LOWER(?)`. -/
def topicExists (topics : List TopicRow) (title : String) : Bool :=
  topics.any fun r => sqlLowerKey r.title == sqlLowerKey title

/-- Insert one trend as a fresh `pending` topic row. -/
def insertTopic (now : Nat) (t : TrendItem) (st : DbState) : DbState :=
  { st with
    topics := st.topics ++
      [{ id := st.nextTopicId, title := t.title, source := t.source,
         sourceUrl := t.sourceUrl, status := .pending, discoveredAt := now,
         processedAt := none }],
    nextTopicId := st.nextTopicId + 1 }

/-- `TrendService.saveTrendsToDatabase`: for each item, insert only when no
existing row collides on `LOWER(title)`; a collision is silently skipped and
the existing row is never updated. -/
def saveTrendsToDatabase (now : Nat) (trends : List TrendItem)
    (st : DbState) : DbState :=
  trends.foldl (fun st t =>
    if topicExists st.topics t.title then st else insertTopic now t st) st

/-- `TrendService.aggregateTrends`, with the items fetched from RSS/Google
Trends supplied as a parameter: in-batch dedup, then the per-item insert. -/
def aggregateTrends (now : Nat) (fetched : List TrendItem)
    (st : DbState) : DbState :=
  saveTrendsToDatabase now (deduplicateTrends fetched) st

/-- Descending insertion by `discoveredAt` (ties keep earlier rows first),
modelling `ORDER BY discovered_at DESC`. -/
def insertDesc (r : TopicRow) : List TopicRow → List TopicRow
  | [] => [r]
  | x :: xs =>
      if r.discoveredAt ≤ x.discoveredAt then x :: insertDesc r xs
      else r :: x :: xs

/-- Sort topic rows by `discoveredAt` descending. -/
def sortDesc (l : List TopicRow) : List TopicRow :=
  l.foldr insertDesc []

/-- `TrendService.getPendingTrends`:
`SELECT * FROM topics WHERE status='pending' ORDER BY discovered_at DESC
LIMIT ?`. -/
def getPendingTrends (limit : Nat) (st : DbState) : List TopicRow :=
  (sortDesc (st.topics.filter fun r => decide (r.status = .pending))).take limit

/-- `TrendService.markTrendProcessed`:
`UPDATE topics SET status='processed', processed_at=now WHERE id=?`. -/
def markTrendProcessed (id : Nat) (now : Nat) (st : DbState) : DbState :=
  { st with
    topics := st.topics.map fun r =>
      if r.id = id then { r with status := .processed, processedAt := some now }
      else r }

/-! ## Content Generator (`aiContent.service.ts`) -/

/-- The per-platform draft row written by
`ContentGenerationService.saveContentToDatabase` (status `'draft'`). -/
def draftRow (cid : Nat) (tid : Nat) (p : Platform) (g : GenPost)
    (now : Nat) : ContentRow :=
  { id := cid, topicId := some tid, platform := some p, title := some g.title,
    body := some g.body, hashtags := g.hashtags, imageUrl := none,
    trendTitle := none, contentText := none, status := .draft,
    createdAt := some now, approvedAt := none, publishedAt := none,
    publishedUrl := none }

/-- Append a content row and bump the auto-increment counter. -/
def insertContent (r : ContentRow) (st : DbState) : DbState :=
  { st with content := st.content ++ [r], nextContentId := st.nextContentId + 1 }

/-- The platform loop of `ContentGenerationService.generateContent`: for each
requested platform, the parsed LLM response either holds a
`<platform>_post` object (collected, and persisted as a draft when the
truthy `topicId` is present) or not (silently skipped). -/
def genLoop (resp : Platform → Option GenPost) (topicId : Option Nat)
    (now : Nat) : List Platform → DbState → List (Platform × GenPost) × DbState
  | [], st => ([], st)
  | p :: ps, st =>
      match resp p with
      | none => genLoop resp topicId now ps st
      | some g =>
          let st' :=
            match topicId with
            | some tid =>
                if tid ≠ 0 then
                  insertContent (draftRow st.nextContentId tid p g now) st
                else st
            | none => st
          let rest := genLoop resp topicId now ps st'
          ((p, g) :: rest.1, rest.2)

/-- `ContentGenerationService.generateContent`, with the outcome of the
research + LLM call + JSON parse supplied as a parameter: any failure before
the platform loop is caught and re-thrown as the fixed
`AppError('Failed to generate content', 500)` with no row written; on
success the platform loop runs. -/
def generateContent (resp : Except String (Platform → Option GenPost))
    (topicId : Option Nat) (platforms : List Platform) (now : Nat)
    (st : DbState) : Except String (List (Platform × GenPost)) × DbState :=
  match resp with
  | .error _ => (.error "Failed to generate content", st)
  | .ok f =>
      let r := genLoop f topicId now platforms st
      (.ok r.1, r.2)

/-! ## Campaign Orchestrator (`campaign.service.ts`, `CampaignRunner`) -/

/-- The two campaign modes of `runCampaign`. -/
inductive Mode where
  | auto
  | custom
deriving DecidableEq, Repr

/-- The `CampaignResult` interface; `contentGenerated` is an optional field
and is `none` when the source omits it (the zero-trend outcome). -/
structure CampaignResult where
  trendsFound : Nat
  processed : Option String
  contentGenerated : Option Bool
deriving DecidableEq, Repr

/-- Observable side-effect counters of one campaign run: how many times
trend aggregation ran, how many times the content generator was invoked,
and how many times `markTrendProcessed` was invoked. -/
structure Effects where
  aggregationRuns : Nat
  generatorCalls : Nat
  markProcessedCalls : Nat
deriving DecidableEq, Repr

/-- The external collaborators and ambient inputs of one `runCampaign` call:
the configuration read by the validator, the configured RSS feed count, the
items trend aggregation would fetch, the LLM outcome, and the clock. -/
structure CampaignDeps where
  cfg : UserConfig
  rssFeedCount : Nat
  fetched : List TrendItem
  genResp : Except String (Platform → Option GenPost)
  now : Nat

/-- The synthetic topic the custom branch of `runCampaign` builds:
`{ id: Date.now(), title: customTopic, source: 'Custom Topic',
status: 'pending' }`. -/
def customTrend (d : CampaignDeps) (title : String) : TopicRow :=
  { id := d.now, title := title, source := "Custom Topic", sourceUrl := none,
    status := .pending, discoveredAt := d.now, processedAt := none }

/-- The aggregate row `runCampaign` inserts after generation:
`INSERT INTO content (trend_title, content_text, status, created_at)
VALUES (?, ?, 'pending_approval', ?)`. -/
def campaignRow (cid : Nat) (trendTitle : String)
    (contents : List (Platform × GenPost)) (now : Nat) : ContentRow :=
  { id := cid, topicId := none, platform := none, title := none, body := none,
    hashtags := none, imageUrl := none, trendTitle := some trendTitle,
    contentText := some contents, status := .pending_approval,
    createdAt := some now, approvedAt := none, publishedAt := none,
    publishedUrl := none }

/-- The outcome of one `runCampaign` call: the returned result or thrown
error, the final database state, and the effect counters. -/
structure RunOutcome where
  result : Except String CampaignResult
  db : DbState
  eff : Effects
deriving Repr

/-- The tail of `runCampaign` after a topic has been selected: the
`!selectedTrend.title` validity check (the empty string is falsy), the
generator call, and the aggregate `pending_approval` insert.  Note that
`markTrendProcessed` is never invoked. -/
def runAfterSelect (d : CampaignDeps) (sel : TopicRow) (trendsFound : Nat)
    (st : DbState) (eff : Effects) : RunOutcome :=
  if sel.title = "" then
    ⟨.error "Selected trend is invalid or missing title", st, eff⟩
  else
    let gen := generateContent d.genResp (some sel.id)
      [Platform.wechat, Platform.xhs] d.now st
    let eff' := { eff with generatorCalls := eff.generatorCalls + 1 }
    match gen with
    | (.error e, st') => ⟨.error e, st', eff'⟩
    | (.ok contents, st') =>
        let st'' := insertContent
          (campaignRow st'.nextContentId sel.title contents d.now) st'
        ⟨.ok { trendsFound := trendsFound, processed := some sel.title,
               contentGenerated := some true }, st'', eff'⟩

/-- `CampaignRunner.runCampaign`: provider validation first; then either the
custom branch (taken only when the mode is `custom` *and* the caller topic is
truthy) or the auto branch (aggregation when RSS feeds are configured, then
selection of the first of up to five pending trends, with the zero-trend
normal outcome). -/
def runCampaign (d : CampaignDeps) (mode : Mode) (customTopic : Option String)
    (st : DbState) : RunOutcome :=
  match validateBeforeCampaign d.cfg with
  | .error e => ⟨.error e, st, ⟨0, 0, 0⟩⟩
  | .ok _ =>
      if mode = .custom ∧ truthy customTopic then
        runAfterSelect d (customTrend d (customTopic.getD "")) 1 st ⟨0, 0, 0⟩
      else
        let st1 := if d.rssFeedCount > 0 then aggregateTrends d.now d.fetched st
                   else st
        let eff1 : Effects := ⟨if d.rssFeedCount > 0 then 1 else 0, 0, 0⟩
        match getPendingTrends 5 st1 with
        | [] => ⟨.ok { trendsFound := 0, processed := none,
                       contentGenerated := none }, st1, eff1⟩
        | sel :: rest => runAfterSelect d sel (rest.length + 1) st1 eff1

/-! ## Theorems -/

/-! ### C1: the publish operation requires current status `approved` -/

/-- C1: for every Content row, the publish handler fails with the
InvalidState-class 400 response whenever the row's current status is not
`approved` (so in particular for `pending_approval` and `rejected` rows),
leaving the table unchanged; a missing id is a 404; and a successful publish
can only arise from a row whose current status is `approved`, updating it
to `published` with `publishedAt = now` and the dispatch `publishedUrl`. -/
theorem publish_only_from_approved (cfg : UserConfig) (gd : GDocsBehavior)
    (now : Nat) (table : List ContentRow) (id : Nat) :
    (∀ c, table.find? (fun r => r.id == id) = some c → c.status ≠ .approved →
      publishHandler cfg gd now table id = (.notApproved, table))
  ∧ (table.find? (fun r => r.id == id) = none →
      publishHandler cfg gd now table id = (.notFound, table))
  ∧ (∀ url out, publishHandler cfg gd now table id = (.ok url, out) →
      ∃ c, table.find? (fun r => r.id == id) = some c ∧ c.status = .approved ∧
        out = table.map (publishUpdate id now url)) := by
  refine ⟨?_, ?_, ?_⟩
  · intro c hf hs
    simp [publishHandler, hf, hs]
  · intro hf
    simp [publishHandler, hf]
  · intro url out h
    cases hf : table.find? (fun r => r.id == id) with
    | none => simp [publishHandler, hf] at h
    | some c =>
      refine ⟨c, rfl, ?_⟩
      by_cases hs : c.status = .approved
      · by_cases hd : (dispatchPlatform cfg gd c.platform).1 = true
        · simp only [publishHandler, hf, hs, if_true, Bool.or_false, hd,
            if_pos, Prod.mk.injEq, PublishOutcome.ok.injEq] at h
          exact ⟨hs, by rw [← h.1]; exact h.2.symm⟩
        · simp [publishHandler, hf, hs, hd] at h
      · simp [publishHandler, hf, hs] at h

/-! ### C2: a failed dispatch does not consume the approval -/

/-- C2: for an `approved` row, the publish handler marks it `published` only
when the platform dispatch reported success; when dispatch fails, the handler
returns the all-platforms-failed error and the whole table — in particular
the row's `approved` status and every other field — is unchanged. -/
theorem publish_failure_preserves_approval (cfg : UserConfig)
    (gd : GDocsBehavior) (now : Nat) (table : List ContentRow) (id : Nat)
    (c : ContentRow) (hf : table.find? (fun r => r.id == id) = some c)
    (hs : c.status = .approved) :
    ((dispatchPlatform cfg gd c.platform).1 = false →
       publishHandler cfg gd now table id = (.allFailed, table))
  ∧ ((dispatchPlatform cfg gd c.platform).1 = true →
       publishHandler cfg gd now table id =
         (.ok (dispatchPlatform cfg gd c.platform).2,
          table.map (publishUpdate id now (dispatchPlatform cfg gd c.platform).2)))
  ∧ (∀ url out, publishHandler cfg gd now table id = (.ok url, out) →
       (dispatchPlatform cfg gd c.platform).1 = true) := by
  refine ⟨?_, ?_, ?_⟩
  · intro hd
    simp [publishHandler, hf, hs, hd]
  · intro hd
    simp [publishHandler, hf, hs, hd]
  · intro url out h
    by_cases hd : (dispatchPlatform cfg gd c.platform).1 = true
    · exact hd
    · simp [publishHandler, hf, hs, hd] at h

/-! ### Concrete fixtures used by the witnesses and counterexamples -/

/-- A configuration with only the XHS cookie present. -/
def cfgXhsOnly : UserConfig := ⟨none, none, some "cookie", none, none⟩

/-- The fully empty configuration. -/
def cfgEmpty : UserConfig := ⟨none, none, none, none, none⟩

/-- A Google Docs collaborator that is unconfigured. -/
def gdOff : GDocsBehavior := ⟨false, .error "not configured"⟩

/-- An approved XHS content row. -/
def approvedXhsRow : ContentRow :=
  ⟨1, some 1, some .xhs, some "T", some "B", none, none, none, none,
   .approved, some 1, some 2, none, none⟩

/-- A pending-approval WeChat content row. -/
def pendingRow : ContentRow :=
  ⟨2, some 1, some .wechat, some "T2", some "B2", none, none, none, none,
   .pending_approval, some 1, none, none, none⟩

/-- Witness for C1: publishing the concrete `pending_approval` row fails
with the InvalidState-class response and leaves the table unchanged. -/
theorem publish_only_from_approved_witness :
    publishHandler cfgXhsOnly gdOff 9 [pendingRow] 2 =
      (.notApproved, [pendingRow]) :=
  (publish_only_from_approved cfgXhsOnly gdOff 9 [pendingRow] 2).1 pendingRow
    (by decide) (by decide)

/-- Witness for C2: with no XHS credential configured, publishing the
concrete approved XHS row fails for all platforms and the table is
unchanged. -/
theorem publish_failure_preserves_approval_witness :
    publishHandler cfgEmpty gdOff 9 [approvedXhsRow] 1 =
      (.allFailed, [approvedXhsRow]) :=
  (publish_failure_preserves_approval cfgEmpty gdOff 9 [approvedXhsRow] 1
    approvedXhsRow (by decide) (by decide)).1 (by decide)

/-! ### C3: the approve operation -/

/-- A published XHS content row (approved at 5, published at 6). -/
def publishedRow : ContentRow :=
  ⟨1, some 1, some .xhs, some "T", some "B", none, none, none, none,
   .published, some 1, some 5, some 6, some "u"⟩

/-- Counterexample to C3: the approve handler has no NotFound failure and no
transition guard.  Approving the concrete `published` row at time 10 resets
its status to `approved` and overwrites `approvedAt` from 5 to 10 (not a
no-op), and approving a missing id reports success with no row rather than a
NotFound error. -/
theorem approve_claim_counterexample :
    approveHandler 10 [publishedRow] 1 =
      (some ⟨1, some 1, some .xhs, some "T", some "B", none, none, none, none,
             .approved, some 1, some 10, some 6, some "u"⟩,
       [⟨1, some 1, some .xhs, some "T", some "B", none, none, none, none,
         .approved, some 1, some 10, some 6, some "u"⟩])
  ∧ publishedRow.status = .published
  ∧ publishedRow.approvedAt = some 5
  ∧ approveHandler 10 [] 7 = (none, []) := by decide

/-- C3 amended: the approve handler never fails with NotFound — a missing id
is a success that changes nothing — and for an existing row it sets status
`approved` and `approvedAt = now` unconditionally, whatever the current
status (so a repeated call at a later time overwrites `approvedAt`, and
`published`/`rejected` rows are pulled back to `approved`); rows with other
ids are untouched. -/
theorem approve_unconditional (now : Nat) (table : List ContentRow)
    (id : Nat) :
    (∀ r ∈ table, r.id = id →
       { r with status := .approved, approvedAt := some now } ∈
         (approveHandler now table id).2)
  ∧ (∀ r ∈ (approveHandler now table id).2, r.id ≠ id → r ∈ table)
  ∧ ((∀ r ∈ table, r.id ≠ id) → approveHandler now table id = (none, table)) := by
  refine ⟨?_, ?_, ?_⟩
  · intro r hr hid
    have : approveUpdate id now r =
        { r with status := .approved, approvedAt := some now } := by
      simp [approveUpdate, hid]
    simpa [approveHandler, ← this] using List.mem_map_of_mem _ hr
  · intro r hr hid
    simp only [approveHandler, List.mem_map] at hr
    obtain ⟨s, hs, hsr⟩ := hr
    by_cases h : s.id = id
    · exfalso
      apply hid
      rw [← hsr]
      simp [approveUpdate, h]
    · rw [← hsr]
      simpa [approveUpdate, h] using hs
  · intro hall
    have hmap : table.map (approveUpdate id now) = table := by
      conv_rhs => rw [← List.map_id table]
      apply List.map_congr_left
      intro r hr
      simp [approveUpdate, hall r hr]
    have hfind : table.find? (fun r => r.id == id) = none := by
      apply List.find?_eq_none.mpr
      intro r hr
      simpa using hall r hr
    simp [approveHandler, hmap, hfind]

/-- Witness for the amended C3: approving the concrete `pending_approval`
row updates it in place, and approving an id that matches no row succeeds
and changes nothing. -/
theorem approve_unconditional_witness :
    ({ pendingRow with status := .approved, approvedAt := some 10 } ∈
       (approveHandler 10 [pendingRow] 2).2)
  ∧ approveHandler 10 [pendingRow] 1 = (none, [pendingRow]) :=
  ⟨(approve_unconditional 10 [pendingRow] 2).1 pendingRow (by decide)
     (by decide),
   (approve_unconditional 10 [pendingRow] 1).2.2 (by decide)⟩

/-! ### Shared helper lemmas -/

/-- The generator's platform loop never touches the topics table. -/
theorem genLoop_topics (resp : Platform → Option GenPost)
    (topicId : Option Nat) (now : Nat) (ps : List Platform) (st : DbState) :
    (genLoop resp topicId now ps st).2.topics = st.topics := by
  induction ps generalizing st with
  | nil => rfl
  | cons p ps ih =>
      unfold genLoop
      cases resp p with
      | none => exact ih st
      | some g =>
          cases topicId with
          | none => exact ih st
          | some tid =>
              by_cases h : tid ≠ 0 <;> simp [h, ih, insertContent]

/-- `generateContent` never touches the topics table. -/
theorem generateContent_topics (resp : Except String (Platform → Option GenPost))
    (topicId : Option Nat) (platforms : List Platform) (now : Nat)
    (st : DbState) :
    (generateContent resp topicId platforms now st).2.topics = st.topics := by
  unfold generateContent
  cases resp with
  | error e => rfl
  | ok f => exact genLoop_topics f topicId now platforms st

/-- The post-selection tail of a campaign run never touches the topics
table: it neither inserts topics nor calls `markTrendProcessed`. -/
theorem runAfterSelect_topics (d : CampaignDeps) (sel : TopicRow)
    (trendsFound : Nat) (st : DbState) (eff : Effects) :
    (runAfterSelect d sel trendsFound st eff).db.topics = st.topics := by
  unfold runAfterSelect
  by_cases h : sel.title = ""
  · simp [h]
  · have hgen := generateContent_topics d.genResp (some sel.id)
      [Platform.wechat, Platform.xhs] d.now st
    simp only [h, if_neg, ite_false]
    split
    next heq =>
      have := congrArg Prod.snd heq
      simp at this
      simp [← this, hgen]
    next heq =>
      have := congrArg Prod.snd heq
      simp at this
      simp [insertContent, ← this, hgen]

/-- The post-selection tail never runs trend aggregation. -/
theorem runAfterSelect_agg (d : CampaignDeps) (sel : TopicRow) (n : Nat)
    (st : DbState) (eff : Effects) :
    (runAfterSelect d sel n st eff).eff.aggregationRuns =
      eff.aggregationRuns := by
  unfold runAfterSelect
  by_cases h : sel.title = ""
  · simp [h]
  · rcases hgen : generateContent d.genResp (some sel.id)
      [Platform.wechat, Platform.xhs] d.now st with ⟨res, st2⟩
    cases res <;> simp [h, hgen]

/-- A successful post-selection tail always reports the selected title and
`contentGenerated := true`. -/
theorem runAfterSelect_ok (d : CampaignDeps) (sel : TopicRow) (n : Nat)
    (st : DbState) (eff : Effects) (r : CampaignResult) :
    (runAfterSelect d sel n st eff).result = .ok r →
      r = ⟨n, some sel.title, some true⟩ := by
  unfold runAfterSelect
  by_cases h : sel.title = ""
  · simp [h]
  · rcases hgen : generateContent d.genResp (some sel.id)
      [Platform.wechat, Platform.xhs] d.now st with ⟨res, st2⟩
    cases res with
    | error e => simp [h, hgen]
    | ok contents =>
        simp only [h, ite_false, hgen, Except.ok.injEq]
        intro hr
        exact hr.symm

/-- Saving trends never touches the content table. -/
theorem saveTrends_content (now : Nat) (trends : List TrendItem)
    (st : DbState) :
    (saveTrendsToDatabase now trends st).content = st.content := by
  induction trends generalizing st with
  | nil => rfl
  | cons t ts ih =>
      unfold saveTrendsToDatabase
      by_cases h : topicExists st.topics t.title = true <;>
        simp only [List.foldl_cons, h, ite_true, ite_false] <;>
        first
          | exact ih st
          | simpa [insertTopic] using ih (insertTopic now t st)

/-- Trend aggregation never touches the content table. -/
theorem aggregateTrends_content (now : Nat) (fetched : List TrendItem)
    (st : DbState) :
    (aggregateTrends now fetched st).content = st.content :=
  saveTrends_content now (deduplicateTrends fetched) st

/-! ### C4: the pre-campaign provider gate -/

/-- Counterexample to C4: with the empty configuration every provider's
missing-keys list is non-empty and validation fails, but the thrown error's
message is the fixed `noProviderMsg`, which does not contain any missing key
name: the per-provider listing (`campaignMissingInfo`) is written to the
error log, not to the error message. -/
theorem validate_message_counterexample :
    validateBeforeCampaign cfgEmpty = .error noProviderMsg
  ∧ (validatePublishingProviders cfgEmpty).all
      (fun p => !p.missing_keys.isEmpty) = true
  ∧ strOccurs noProviderMsg "wechatAppId" = false
  ∧ strOccurs noProviderMsg "xhsCookie" = false
  ∧ strOccurs noProviderMsg "googleDocsCredentials" = false
  ∧ strOccurs (campaignMissingInfo cfgEmpty) "wechatAppId" = true := by
  refine ⟨rfl, by decide, by decide, by decide, by decide, by decide⟩

/-- C4 amended: `validateBeforeCampaign` fails — always with the fixed
`noProviderMsg` — exactly when the configured-provider set is empty, which
holds exactly when every provider's missing-keys list is non-empty; and a
failing gate makes `runCampaign` return the error at once, with the database
untouched, no aggregation run and no generator call. -/
theorem validate_gate (d : CampaignDeps) (mode : Mode)
    (customTopic : Option String) (st : DbState) :
    (validateBeforeCampaign d.cfg = .error noProviderMsg ↔
       getAvailableProviders d.cfg = [])
  ∧ (getAvailableProviders d.cfg = [] ↔
       (validatePublishingProviders d.cfg).all
         (fun p => !p.missing_keys.isEmpty) = true)
  ∧ (getAvailableProviders d.cfg = [] →
       runCampaign d mode customTopic st = ⟨.error noProviderMsg, st, ⟨0, 0, 0⟩⟩) := by
  have h1 : validateBeforeCampaign d.cfg = .error noProviderMsg ↔
      getAvailableProviders d.cfg = [] := by
    cases hl : getAvailableProviders d.cfg with
    | nil => simp [validateBeforeCampaign, hasAnyProviderConfigured, hl]
    | cons a l => simp [validateBeforeCampaign, hasAnyProviderConfigured, hl]
  have h2 : getAvailableProviders d.cfg = [] ↔
      (validatePublishingProviders d.cfg).all
        (fun p => !p.missing_keys.isEmpty) = true := by
    cases hw1 : truthy d.cfg.wechatAppId <;>
      cases hw2 : truthy d.cfg.wechatAppSecret <;>
      cases hx : truthy d.cfg.xhsCookie <;>
      cases hg1 : truthy d.cfg.googleDocsCredentials <;>
      cases hg2 : truthy d.cfg.googleDocsFolderId <;>
      simp [getAvailableProviders, validatePublishingProviders, hw1, hw2, hx,
        hg1, hg2]
  refine ⟨h1, h2, fun h => ?_⟩
  have hv := h1.mpr h
  simp [runCampaign, hv]

/-- The empty database. -/
def dbEmpty : DbState := ⟨[], [], 1, 1⟩

/-- A set of campaign collaborators whose generator never yields a post. -/
def depsNoGen : CampaignDeps := ⟨cfgEmpty, 0, [], .ok fun _ => none, 3⟩

/-- Witness for the amended C4: with the empty configuration the gate fails
and the campaign run returns the fixed error with the database untouched. -/
theorem validate_gate_witness :
    runCampaign depsNoGen .auto none dbEmpty =
      ⟨.error noProviderMsg, dbEmpty, ⟨0, 0, 0⟩⟩ :=
  (validate_gate depsNoGen .auto none dbEmpty).2.2 (by decide)

/-! ### C5: the originating topic is never marked processed -/

/-- A pending topic discovered at time 5. -/
def exTopic : TopicRow := ⟨1, "AI Regulation", "Feed", none, .pending, 5, none⟩

/-- A database holding exactly the one pending topic. -/
def dbOneTopic : DbState := ⟨[exTopic], [], 2, 1⟩

/-- A generated post used by the concrete runs. -/
def examplePost : GenPost := ⟨"Title", "Body", none⟩

/-- Campaign collaborators: XHS configured, no RSS feeds, a generator that
yields a post for every platform, clock 10. -/
def depsBothPosts : CampaignDeps :=
  ⟨cfgXhsOnly, 0, [], .ok fun _ => some examplePost, 10⟩

/-- C5 (code bug): the auto-mode run selects the pending topic, generates
and persists content, and reports success — yet `markTrendProcessed` is
never invoked: the originating topic is left exactly as it was, still
`pending` with `processedAt` unset, so the next run would select it again.
The final conjunct shows what the `markTrendProcessed` operation the claim
expects would have produced. -/
theorem campaign_never_marks_processed :
    (runCampaign depsBothPosts .auto none dbOneTopic).result =
      .ok ⟨1, some "AI Regulation", some true⟩
  ∧ (runCampaign depsBothPosts .auto none dbOneTopic).db.topics = [exTopic]
  ∧ (runCampaign depsBothPosts .auto none dbOneTopic).eff.markProcessedCalls = 0
  ∧ exTopic.status = .pending
  ∧ exTopic.processedAt = none
  ∧ (markTrendProcessed 1 10 dbOneTopic).topics =
      [⟨1, "AI Regulation", "Feed", none, .processed, 5, some 10⟩] :=
  ⟨rfl, rfl, rfl, rfl, rfl, rfl⟩

/-! ### C9: the zero-trend auto run is a normal outcome -/

/-- C9: when the provider gate passes and, after the aggregation step, no
pending topic exists, the auto run returns `{trendsFound := 0, processed :=
none}` (with `contentGenerated` omitted) as a normal non-error outcome, the
content table is unchanged (no Content rows created), and the generator is
never called. -/
theorem auto_zero_trends (d : CampaignDeps) (st : DbState)
    (hok : validateBeforeCampaign d.cfg = .ok ())
    (hpend : getPendingTrends 5
      (if d.rssFeedCount > 0 then aggregateTrends d.now d.fetched st else st)
        = []) :
    (runCampaign d .auto none st).result = .ok ⟨0, none, none⟩
  ∧ (runCampaign d .auto none st).db.content = st.content
  ∧ (runCampaign d .auto none st).eff.generatorCalls = 0 := by
  have hcontent : (if d.rssFeedCount > 0 then
      aggregateTrends d.now d.fetched st else st).content = st.content := by
    split
    · exact aggregateTrends_content d.now d.fetched st
    · rfl
  simp [runCampaign, hok, hpend, hcontent]

/-- A configuration-complete dependency set whose trend fetch returns
nothing. -/
def depsNoTrends : CampaignDeps := ⟨cfgXhsOnly, 0, [], .ok fun _ => none, 3⟩

/-- Witness for C9: on the empty database the concrete auto run returns the
zero-result outcome and creates no content. -/
theorem auto_zero_trends_witness :
    (runCampaign depsNoTrends .auto none dbEmpty).result = .ok ⟨0, none, none⟩
  ∧ (runCampaign depsNoTrends .auto none dbEmpty).db.content = dbEmpty.content
  ∧ (runCampaign depsNoTrends .auto none dbEmpty).eff.generatorCalls = 0 :=
  auto_zero_trends depsNoTrends dbEmpty rfl rfl

/-! ### C6: trend deduplication -/

/-- Counterexample to C6: "AI" and " AI" normalise (lowercase + trim) to the
same string; inserting them in the same batch yields one pending row, but
inserting them in successive batches yields two pending rows, because the
cross-batch collision check compares `LOWER(title)` without trimming. -/
theorem trend_dedup_counterexample :
    normTitle "AI" = normTitle " AI"
  ∧ (aggregateTrends 1 [⟨"AI", "Feed", none⟩, ⟨" AI", "Feed", none⟩]
      dbEmpty).topics.length = 1
  ∧ (aggregateTrends 2 [⟨" AI", "Feed", none⟩]
      (aggregateTrends 1 [⟨"AI", "Feed", none⟩] dbEmpty)).topics.length = 2
  ∧ ((aggregateTrends 2 [⟨" AI", "Feed", none⟩]
      (aggregateTrends 1 [⟨"AI", "Feed", none⟩] dbEmpty)).topics.filter
        fun r => decide (r.status = .pending)).length = 2 := by
  refine ⟨by decide, by decide, by decide, by decide⟩

/-- C6 amended: within one batch, two items whose titles agree after
lowercase + trim yield exactly one pending row (the first item's, inserted
verbatim); across successive batches the collision key is lowercasing only —
when the new title matches an existing row after lowercasing alone, the
insert is a silent no-op that never updates the existing row. -/
theorem trend_dedup (t1 t2 : TrendItem) (now1 now2 : Nat) :
    (normTitle t1.title = normTitle t2.title →
       (aggregateTrends now1 [t1, t2] dbEmpty).topics =
         [⟨1, t1.title, t1.source, t1.sourceUrl, .pending, now1, none⟩])
  ∧ (sqlLowerKey t1.title = sqlLowerKey t2.title →
       aggregateTrends now2 [t2] (aggregateTrends now1 [t1] dbEmpty) =
         aggregateTrends now1 [t1] dbEmpty) := by
  constructor
  · intro h
    simp [aggregateTrends, deduplicateTrends, dedupGo, ← h,
      saveTrendsToDatabase, topicExists, insertTopic, dbEmpty]
  · intro h
    simp [aggregateTrends, deduplicateTrends, dedupGo, saveTrendsToDatabase,
      topicExists, insertTopic, dbEmpty, h]

/-- Witness for the amended C6: "AI" and "ai" collide after lowercasing, so
the same batch keeps only the first, and a successive batch is a no-op. -/
theorem trend_dedup_witness :
    (aggregateTrends 1 [⟨"AI", "Feed", none⟩, ⟨"ai", "Blog", some "u"⟩]
       dbEmpty).topics = [⟨1, "AI", "Feed", none, .pending, 1, none⟩]
  ∧ aggregateTrends 2 [⟨"ai", "Blog", some "u"⟩]
      (aggregateTrends 1 [⟨"AI", "Feed", none⟩] dbEmpty) =
        aggregateTrends 1 [⟨"AI", "Feed", none⟩] dbEmpty :=
  ⟨(trend_dedup ⟨"AI", "Feed", none⟩ ⟨"ai", "Blog", some "u"⟩ 1 2).1
     (by decide),
   (trend_dedup ⟨"AI", "Feed", none⟩ ⟨"ai", "Blog", some "u"⟩ 1 2).2
     (by decide)⟩

/-! ### C7: a per-platform generation failure does not abort the batch -/

/-- C7: when the generator yields a wechat post but no xhs post, the auto
run still succeeds with `contentGenerated := true`, and afterwards exactly
one Content row targets wechat (established by `saveContentToDatabase`) while
none targets xhs. -/
theorem partial_generation_persists (d : CampaignDeps) (topic : TopicRow)
    (f : Platform → Option GenPost) (g : GenPost) (nt nc : Nat)
    (hok : validateBeforeCampaign d.cfg = .ok ())
    (hrss : d.rssFeedCount = 0)
    (hresp : d.genResp = .ok f)
    (hw : f .wechat = some g) (hx : f .xhs = none)
    (htop : topic.status = .pending) (hid : topic.id ≠ 0)
    (htitle : topic.title ≠ "") :
    (runCampaign d .auto none ⟨[topic], [], nt, nc⟩).result =
      .ok ⟨1, some topic.title, some true⟩
  ∧ ((runCampaign d .auto none ⟨[topic], [], nt, nc⟩).db.content.filter
      fun r => decide (r.platform = some .wechat)).length = 1
  ∧ ((runCampaign d .auto none ⟨[topic], [], nt, nc⟩).db.content.filter
      fun r => decide (r.platform = some .xhs)).length = 0 := by
  have hrun : runCampaign d .auto none ⟨[topic], [], nt, nc⟩ =
      runAfterSelect d topic 1 ⟨[topic], [], nt, nc⟩ ⟨0, 0, 0⟩ := by
    simp [runCampaign, hok, hrss, getPendingTrends, htop, sortDesc, insertDesc]
  have hgen : runAfterSelect d topic 1 ⟨[topic], [], nt, nc⟩ ⟨0, 0, 0⟩ =
      ⟨.ok ⟨1, some topic.title, some true⟩,
       ⟨[topic],
        [draftRow nc topic.id .wechat g d.now,
         campaignRow (nc + 1) topic.title [(.wechat, g)] d.now],
        nt, nc + 2⟩,
       ⟨0, 1, 0⟩⟩ := by
    simp [runAfterSelect, htitle, generateContent, hresp, genLoop, hw, hx,
      hid, insertContent, campaignRow]
  rw [hrun, hgen]
  refine ⟨rfl, ?_, ?_⟩ <;> simp [draftRow, campaignRow]

/-- A generator response yielding only a wechat post. -/
def respWechatOnly : Platform → Option GenPost
  | .wechat => some examplePost
  | _ => none

/-- Campaign collaborators whose generator succeeds for wechat only. -/
def depsWechatOnly : CampaignDeps :=
  ⟨cfgXhsOnly, 0, [], .ok respWechatOnly, 10⟩

/-- Witness for C7: on the concrete one-topic database, the run with a
wechat-only generator response reports success and persists exactly one
wechat row and no xhs row. -/
theorem partial_generation_persists_witness :
    (runCampaign depsWechatOnly .auto none ⟨[exTopic], [], 2, 1⟩).result =
      .ok ⟨1, some "AI Regulation", some true⟩
  ∧ ((runCampaign depsWechatOnly .auto none ⟨[exTopic], [], 2, 1⟩).db.content.filter
      fun r => decide (r.platform = some .wechat)).length = 1
  ∧ ((runCampaign depsWechatOnly .auto none ⟨[exTopic], [], 2, 1⟩).db.content.filter
      fun r => decide (r.platform = some .xhs)).length = 0 :=
  partial_generation_persists depsWechatOnly exTopic respWechatOnly
    examplePost 2 1 rfl rfl rfl rfl rfl rfl (by decide) (by decide)

/-! ### C8: the custom-topic branch -/

/-- Counterexample to C8: a custom-mode run whose topic is the empty string
does not fail with InvalidInput — it silently falls into the auto branch and
(with no pending trends) returns the zero-result outcome — and a custom-mode
run whose topic is a single space (empty after trimming) proceeds to
generate and persist content for the untrimmed topic " " instead of
failing. -/
theorem custom_empty_topic_counterexample :
    runCampaign depsBothPosts .custom (some "") dbEmpty =
      ⟨.ok ⟨0, none, none⟩, dbEmpty, ⟨0, 0, 0⟩⟩
  ∧ (runCampaign depsBothPosts .custom (some " ") dbEmpty).result =
      .ok ⟨1, some " ", some true⟩ :=
  ⟨rfl, rfl⟩

/-- C8 amended: the custom branch is taken only for a truthy topic string:
an absent or empty-string topic makes the run identical to an auto run (a
silent fallback, with no InvalidInput error anywhere); a non-empty topic —
even whitespace-only, used untrimmed — is wrapped as the synthetic
`customTrend` (source "Custom Topic", ephemeral id `Date.now()`), the Trend
Store is never touched and aggregation never runs, and a successful run
reports `trendsFound = 1` and `processed` equal to the supplied string. -/
theorem custom_topic_behaviour (d : CampaignDeps) (st : DbState)
    (s : String) :
    runCampaign d .custom none st = runCampaign d .auto none st
  ∧ runCampaign d .custom (some "") st = runCampaign d .auto none st
  ∧ (s ≠ "" → validateBeforeCampaign d.cfg = .ok () →
      runCampaign d .custom (some s) st =
        runAfterSelect d (customTrend d s) 1 st ⟨0, 0, 0⟩)
  ∧ (customTrend d s).source = "Custom Topic"
  ∧ (s ≠ "" →
      (runCampaign d .custom (some s) st).db.topics = st.topics
      ∧ (runCampaign d .custom (some s) st).eff.aggregationRuns = 0
      ∧ ∀ r, (runCampaign d .custom (some s) st).result = .ok r →
          r = ⟨1, some s, some true⟩) := by
  have hfb : ∀ topt, truthy topt = false →
      runCampaign d .custom topt st = runCampaign d .auto none st := by
    intro topt ht
    cases hv : validateBeforeCampaign d.cfg with
    | error e => simp [runCampaign, hv]
    | ok u => simp [runCampaign, hv, ht]
  have htr : ∀ hs : s ≠ "", truthy (some s) = true := by
    intro hs
    simp [truthy, hs]
  have hcustom : ∀ hs : s ≠ "", validateBeforeCampaign d.cfg = .ok () →
      runCampaign d .custom (some s) st =
        runAfterSelect d (customTrend d s) 1 st ⟨0, 0, 0⟩ := by
    intro hs hv
    simp [runCampaign, hv, htr hs, Option.getD]
  refine ⟨hfb none rfl, hfb (some "") rfl, hcustom, rfl, fun hs => ?_⟩
  cases hv : validateBeforeCampaign d.cfg with
  | error e =>
      refine ⟨by simp [runCampaign, hv], by simp [runCampaign, hv], ?_⟩
      intro r hr
      simp [runCampaign, hv] at hr
  | ok u =>
      cases u
      rw [hcustom hs hv]
      refine ⟨runAfterSelect_topics d (customTrend d s) 1 st ⟨0, 0, 0⟩,
        runAfterSelect_agg d (customTrend d s) 1 st ⟨0, 0, 0⟩, ?_⟩
      intro r hr
      have := runAfterSelect_ok d (customTrend d s) 1 st ⟨0, 0, 0⟩ r hr
      simpa [customTrend] using this

/-- Witness for the amended C8: the concrete whitespace-only custom run
keeps the Trend Store untouched, never aggregates, and its success reports
`processed = " "`. -/
theorem custom_topic_behaviour_witness :
    runCampaign depsBothPosts .custom (some " ") dbEmpty =
      runAfterSelect depsBothPosts (customTrend depsBothPosts " ") 1 dbEmpty
        ⟨0, 0, 0⟩
  ∧ (runCampaign depsBothPosts .custom (some " ") dbEmpty).db.topics =
      dbEmpty.topics :=
  ⟨(custom_topic_behaviour depsBothPosts dbEmpty " ").2.2.1 (by decide) rfl,
   ((custom_topic_behaviour depsBothPosts dbEmpty " ").2.2.2.2 (by decide)).1⟩

/-! ### C10: the status PATCH bypasses the lifecycle -/

/-- C10: the PATCH status route admits exactly the four strings
draft/approved/published/rejected and then runs `updateContentStatus`, which
sets the requested status on the row with the given id with no check of the
current status — so any lifecycle state can be overwritten — additionally
stamping `approved_at = now` exactly when the request is `approved` and
`published_at = now` exactly when it is `published`; rows with other ids are
untouched. -/
theorem patch_status_bypasses_lifecycle (raw : String) (id now : Nat)
    (table : List ContentRow) :
    ((patchContentStatus raw id now table).isSome = true ↔
       raw ∈ allowedStatusStrings)
  ∧ (∀ s, parseStatus raw = some s →
      patchContentStatus raw id now table =
        some (updateContentStatus id s now table))
  ∧ (∀ s, ∀ r ∈ table, r.id = id →
      statusStamp s now r ∈ updateContentStatus id s now table
      ∧ (statusStamp s now r).status = s
      ∧ (statusStamp s now r).approvedAt =
          (if s = .approved then some now else r.approvedAt)
      ∧ (statusStamp s now r).publishedAt =
          (if s = .published then some now else r.publishedAt))
  ∧ (∀ s, ∀ r ∈ table, r.id ≠ id → r ∈ updateContentStatus id s now table) := by
  have hp : (parseStatus raw).isSome = true ↔ raw ∈ allowedStatusStrings := by
    unfold parseStatus
    split <;> simp_all [allowedStatusStrings]
  refine ⟨?_, ?_, ?_, ?_⟩
  · rw [← hp]
    cases hp0 : parseStatus raw <;> simp [patchContentStatus, hp0]
  · intro s hs
    simp [patchContentStatus, hs]
  · intro s r hr hid
    have hmem := List.mem_map_of_mem
      (fun r : ContentRow => if r.id = id then statusStamp s now r else r) hr
    simp only [if_pos hid] at hmem
    exact ⟨by simpa [updateContentStatus] using hmem, rfl, rfl, rfl⟩
  · intro s r hr hid
    have hmem := List.mem_map_of_mem
      (fun r : ContentRow => if r.id = id then statusStamp s now r else r) hr
    simp only [if_neg hid] at hmem
    simpa [updateContentStatus] using hmem

/-- Witness for C10: the concrete `pending_approval` row is moved straight
to `published` (skipping `approved`) by a PATCH with status "published",
which also stamps `published_at`. -/
theorem patch_status_bypasses_lifecycle_witness :
    patchContentStatus "published" 2 9 [pendingRow] =
      some (updateContentStatus 2 .published 9 [pendingRow])
  ∧ statusStamp .published 9 pendingRow ∈
      updateContentStatus 2 .published 9 [pendingRow] :=
  ⟨(patch_status_bypasses_lifecycle "published" 2 9 [pendingRow]).2.1
     .published (by decide),
   ((patch_status_bypasses_lifecycle "published" 2 9 [pendingRow]).2.2.1
     .published pendingRow (by decide) (by decide)).1⟩

end MarketingAutomation
